import Mathlib

/-!
Shallow embedding of the BurgerBrows wallet client (src/wallet.py,
src/contracts.py, src/reward_system.py, src/browser.py).

Modelling conventions:
* Python integers are `ℕ`/`ℤ`; Python floats are modelled by exact
  rationals `ℚ` (the spec itself flags binary-float drift as a caveat,
  §4.4/§9, and every claim checked here is stated at exactly
  representable values).
* `int(x)` (truncation toward zero) is `pyInt`.
* The remote node is an explicit oracle `ChainState`; a `none` field
  models the corresponding RPC raising, which the Python code catches.
* `eth_sendRawTransaction` of a valid next-nonce transaction places it
  in the node's mempool, after which
  `eth_getTransactionCount(addr, 'pending')` counts it: submission
  increments `pendingCount`.  Transaction hashes are modelled by the
  nonce at submission time (a unique label per account).
-/

namespace BurgerBrows

/-- Python `int(x)` on a float/rational: truncation toward zero. -/
def pyInt (x : ℚ) : ℤ :=
  if 0 ≤ x then ⌊x⌋ else ⌈x⌉

/-- Order of the secp256k1 group: a private key accepted by the external
signing library (`eth_account.Account.from_key`) must be a scalar `v`
with `0 < v < secpOrder`; out-of-range scalars make `from_key` raise,
which `import_wallet` catches. -/
def secpOrder : ℕ :=
  0xFFFFFFFFFFFFFFFFFFFFFFFFFFFFFFFEBAAEDCE6AF48A03BBFD25E8CD0364141

/-- Modelled from the spec (P1): the external signing library's address
derivation is a pure deterministic function of the secret key; the
keccak computation itself is outside this repository and only
determinism is relied on, so a concrete representative total function
stands in for it. -/
def deriveAddress (k : ℕ) : ℕ := k % 2 ^ 160

/-- A signing identity: secret key scalar and derived address
(`self.account` in wallet.py). -/
structure Account where
  key : ℕ
  address : ℕ
  deriving DecidableEq, Repr

/-- The wallet object's connection-relevant state (`self.w3` liveness and
`self.account`). -/
structure Wallet where
  connected : Bool
  account : Option Account
  deriving DecidableEq, Repr

/-- Outcome record of a confirmed transaction (`receipt.status`,
`receipt.blockNumber`). -/
structure Receipt where
  status : ℕ
  blockNumber : ℕ
  deriving DecidableEq, Repr

/-- Oracle for the remote Sepolia node, per account under consideration.
`none` in a query field models the RPC call raising (transport failure);
`receiptOf h = none` models `wait_for_transaction` timing out or
raising for hash `h`. -/
structure ChainState where
  gasPrice : ℕ
  pendingCount : ℕ
  submitAccepts : Bool
  estimateGasResult : ℕ
  balanceWeiOf : ℤ → Option ℕ
  tokenDecimals : Option ℕ
  tokenBalanceOf : ℤ → Option ℕ
  receiptOf : ℕ → Option Receipt

/-- The transaction envelope built by `call_contract_function`
(wallet.py:258-276). -/
structure BuiltTx where
  contractAddress : ℤ
  functionName : String
  args : List ℤ
  valueWei : ℕ
  gas : ℕ
  gasPrice : ℕ
  nonce : ℕ
  chainId : ℕ
  deriving DecidableEq, Repr

/-- wallet.py:253, `int(current_gas_price * 1.2)`: 20% buffer over the
quoted gas price, integer part.  Exact arithmetic stands in for the
float product (they agree for every gas price below ~10^15 wei). -/
def bufferedGasPrice (p : ℕ) : ℕ := 6 * p / 5

/-- wallet.py:234-287 `call_contract_function`: guard on connection and
account, 20%-buffered gas price, nonce from the pending transaction
count, fixed gas limit 300000, chain id 11155111; sign and submit,
returning the transaction hash, or `None` when the wallet is offline /
has no account or any step in the `try` block raises (modelled by
`submitAccepts = false`, which leaves the mempool untouched). -/
def callContractFunction (w : Wallet) (c : ChainState)
    (contractAddress : ℤ) (functionName : String) (args : List ℤ)
    (valueWei : ℕ) :
    Option (ℕ × BuiltTx) × ChainState :=
  match w.account with
  | none => (none, c)
  | some _ =>
    if w.connected then
      let tx : BuiltTx :=
        { contractAddress := contractAddress
          functionName := functionName
          args := args
          valueWei := valueWei
          gas := 300000
          gasPrice := bufferedGasPrice c.gasPrice
          nonce := c.pendingCount
          chainId := 11155111 }
      if c.submitAccepts then
        (some (c.pendingCount, tx), { c with pendingCount := c.pendingCount + 1 })
      else
        (none, c)
    else
      (none, c)

/-- wallet.py:318-336 `wait_for_transaction`: returns the receipt as
obtained (whatever its status), `None` when offline or when polling
raises / times out. -/
def waitForTransaction (w : Wallet) (c : ChainState) (txHash : ℕ) :
    Option Receipt :=
  if w.connected then c.receiptOf txHash else none

/-- wallet.py:154-196 `get_token_balance`: 0.0 when offline or no
account; otherwise read `balanceOf(addr)` and `decimals()` and return
`raw / 10^decimals`; any raising read is caught and 0.0 returned. -/
def getTokenBalance (w : Wallet) (c : ChainState)
    (holder : Option ℤ) : ℚ :=
  match w.account with
  | none => 0
  | some acct =>
    if w.connected then
      let addr : ℤ := holder.getD (acct.address : ℤ)
      match c.tokenBalanceOf addr, c.tokenDecimals with
      | some raw, some d => (raw : ℚ) / 10 ^ d
      | some _, none => 0
      | none, _ => 0
    else 0

/-- wallet.py:136-152 `get_eth_balance`: 0.0 when offline or when no
address can be resolved; otherwise `eth_getBalance` in wei divided by
10^18; a raising RPC is caught and 0.0 returned. -/
def getEthBalance (w : Wallet) (c : ChainState) (address : Option ℤ) : ℚ :=
  if w.connected then
    match address.orElse (fun _ => w.account.map (fun a => (a.address : ℤ))) with
    | none => 0
    | some addr =>
      match c.balanceWeiOf addr with
      | some wei => (wei : ℚ) / 10 ^ 18
      | none => 0
  else 0

/-- Value of one hex digit character, `none` for a non-hex character;
models how the external library parses a hex private-key string (a
non-hex character makes it raise, which `import_wallet` catches). -/
def hexDigitVal (ch : Char) : Option ℕ :=
  if '0' ≤ ch ∧ ch ≤ '9' then some (ch.toNat - '0'.toNat)
  else if 'a' ≤ ch ∧ ch ≤ 'f' then some (ch.toNat - 'a'.toNat + 10)
  else if 'A' ≤ ch ∧ ch ≤ 'F' then some (ch.toNat - 'A'.toNat + 10)
  else none

/-- One step of big-endian hex parsing. -/
def hexStep (acc : Option ℕ) (ch : Char) : Option ℕ :=
  match acc, hexDigitVal ch with
  | some a, some d => some (16 * a + d)
  | _, _ => none

/-- Big-endian hex parse of a character list. -/
def parseHexList (l : List Char) : Option ℕ :=
  l.foldl hexStep (some 0)

/-- Lowercase hex digit character for `d < 16` (as produced by Python's
`bytes.hex()`). -/
def hexDigitChar (d : ℕ) : Char :=
  if d < 10 then Char.ofNat ('0'.toNat + d)
  else Char.ofNat ('a'.toNat + (d - 10))

/-- Little-endian hex digits of `v`, exactly `w` of them. -/
def hexCharsLE : ℕ → ℕ → List Char
  | 0, _ => []
  | w + 1, v => hexDigitChar (v % 16) :: hexCharsLE w (v / 16)

/-- Fixed-width big-endian lowercase hex rendering, as produced by
`bytes.hex()` on a `w/2`-byte value (wallet.py:381 renders the 32-byte
decrypted key as 64 such characters, with no 0x in front). -/
def hexChars (w v : ℕ) : List Char :=
  (hexCharsLE w v).reverse

/-- wallet.py:118-120: drop a leading `0x` if present (the string's
character data; `private_key.startswith('0x')` then slicing). -/
def strip0x (l : List Char) : List Char :=
  if l.take 2 = ['0', 'x'] then l.drop 2 else l

/-- wallet.py:115-134 `import_wallet` on the secret's characters: strip
an optional 0x, reject any remainder whose length is not 64, then hand
the string to `Account.from_key`, which raises (caught, `False`
returned) on a non-hex character or an out-of-range secp256k1 scalar,
and otherwise yields the account with its derived address, which the
wallet stores. `some` is the `True` path. -/
def importWallet (l : List Char) : Option Account :=
  if (strip0x l).length = 64 then
    match parseHexList (strip0x l) with
    | some v =>
      if 0 < v ∧ v < secpOrder then some ⟨v, deriveAddress v⟩ else none
    | none => none
  else none

/-- wallet.py:93-113 `create_new_wallet`: `secrets.token_hex(32)` draws
a random 32-byte scalar (the parameter `randKey < 2^256` here), and
`Account.from_key` accepts it iff it is a valid secp256k1 scalar (the
exception path returns an empty dict, modelled `none`). -/
def createNewWallet (randKey : ℕ) : Option Account :=
  if 0 < randKey ∧ randKey < secpOrder then
    some ⟨randKey, deriveAddress randKey⟩
  else none

/-- The encrypted keystore file produced by the external
`Account.encrypt`.  Modelled from the spec: only the round-trip
property is relied on — decrypting with the passphrase used at
encryption recovers the 32-byte key, any other passphrase fails — so
the ciphertext is carried opaquely together with the KDF/MAC check
deciding passphrase correctness. -/
structure Keystore where
  cipherKey : ℕ
  macTag : String
  deriving DecidableEq, Repr

/-- External `Account.encrypt(key, password)` (used at wallet.py:359). -/
def encryptKeystore (key : ℕ) (password : String) : Keystore :=
  ⟨key, password⟩

/-- External `Account.decrypt(encrypted, password)` (used at
wallet.py:378): recovers the key bytes under the right passphrase,
raises otherwise (caught by the caller, modelled `none`). -/
def decryptKeystore (ks : Keystore) (password : String) : Option ℕ :=
  if ks.macTag = password then some ks.cipherKey else none

/-- wallet.py:351-369 `save_wallet_to_file`: requires an account; writes
`Account.encrypt(self.account.key, password)` as the file content. -/
def saveWalletToFile (acct : Option Account) (password : String) :
    Option Keystore :=
  acct.map (fun a => encryptKeystore a.key password)

/-- wallet.py:371-385 `load_wallet_from_file`: decrypt the keystore,
render the key bytes with `.hex()` (64 lowercase hex characters, no
0x), and import that string via `import_wallet`. -/
def loadWalletFromFile (ks : Keystore) (password : String) :
    Option Account :=
  match decryptKeystore ks password with
  | some key => importWallet (hexChars 64 key)
  | none => none

/-- Nonces placed in the transactions of a back-to-back sequence of
`call_contract_function` invocations (one per entry of `calls`:
function name, arguments, value), no confirmation wait in between; a
`None` return contributes no nonce. -/
def callSeqNonces (w : Wallet) :
    List (ℤ × String × List ℤ × ℕ) → ChainState → List ℕ
  | [], _ => []
  | (addr, fn, args, v) :: rest, c =>
    match callContractFunction w c addr fn args v with
    | (some p, c₁) => p.2.nonce :: callSeqNonces w rest c₁
    | (none, c₁) => callSeqNonces w rest c₁

/-- contracts.py:70-111 `mint_test_usdc`: guard on connection/account;
submit `mint(self_address, int(amount * 10**6))`; if a hash came back,
wait for its receipt and return the hash only when the receipt exists
with status 1; every other path returns `None`. -/
def mintTestUsdc (w : Wallet) (c : ChainState) (usdcAddress : ℤ)
    (amount : ℚ) : Option ℕ × ChainState :=
  match w.account with
  | none => (none, c)
  | some acct =>
    if w.connected then
      match callContractFunction w c usdcAddress "mint"
          [(acct.address : ℤ), pyInt (amount * 10 ^ 6)] 0 with
      | (some (h, _), c₁) =>
        match waitForTransaction w c₁ h with
        | some r => if r.status = 1 then (some h, c₁) else (none, c₁)
        | none => (none, c₁)
      | (none, c₁) => (none, c₁)
    else (none, c)

/-- reward_system.py:27-75 `claim_meaningful_reward`: compute
`10 + activity_score/10` USDC, submit a `transfer(user, int(total *
10**6))`, and report success exactly when a transaction hash came back
— no receipt is requested. -/
def claimMeaningfulReward (w : Wallet) (c : ChainState)
    (usdcAddress : ℤ) (userAddress : ℤ) (activityScore : ℚ) :
    Option ℕ × ChainState :=
  let totalReward : ℚ := 10 + activityScore / 10
  match callContractFunction w c usdcAddress "transfer"
      [userAddress, pyInt (totalReward * 10 ^ 6)] 0 with
  | (some (h, _), c₁) => (some h, c₁)
  | (none, c₁) => (none, c₁)

/-- Observable steps of the browser's two-step deposit flow. -/
inductive FlowEvent where
  | callAttempt (functionName : String) (rawAmount : ℤ)
  | delayMs (ms : ℕ)
  | receiptWait (txHash : ℕ)
  deriving DecidableEq, Repr

/-- browser.py:1176-1191 and 1195-1214 (`deposit_real_usdc` /
`send_real_deposit`): submit `approve(vault, int(amount * 10**6))`; if
a hash came back, `QTimer.singleShot(3000, ...)` schedules
`send_real_deposit`, which submits `deposit(int(amount))`; if no hash
came back, only a failure is logged.  No receipt is ever awaited. -/
def depositRealUsdc (w : Wallet) (c : ChainState)
    (usdcAddress vaultAddress : ℤ) (amount : ℚ) :
    List FlowEvent × ChainState :=
  let approveRaw := pyInt (amount * 10 ^ 6)
  match callContractFunction w c usdcAddress "approve"
      [vaultAddress, approveRaw] 0 with
  | (some _, c₁) =>
    let depositRaw := pyInt amount
    match callContractFunction w c₁ vaultAddress "deposit"
        [depositRaw] 0 with
    | (_, c₂) =>
      ([FlowEvent.callAttempt "approve" approveRaw,
        FlowEvent.delayMs 3000,
        FlowEvent.callAttempt "deposit" depositRaw], c₂)
  | (none, c₁) =>
    ([FlowEvent.callAttempt "approve" approveRaw], c₁)

/-! Concrete fixtures used to instantiate the theorems below. -/

/-- A valid imported account (key scalar 1). -/
def acctOne : Account := ⟨1, deriveAddress 1⟩

/-- A connected wallet holding `acctOne`. -/
def wOk : Wallet := ⟨true, some acctOne⟩

/-- An offline wallet holding `acctOne` (liveness probe failed on all
endpoints; wallet.py:84-86 degrades rather than raising). -/
def wOff : Wallet := ⟨false, some acctOne⟩

/-- A healthy node oracle: gas price 10 wei, 5 transactions already
pending, submissions accepted, token reads succeed
(`decimals()=6`, `balanceOf()=250000000`), receipts confirm. -/
def chainOk : ChainState :=
  { gasPrice := 10
    pendingCount := 5
    submitAccepts := true
    estimateGasResult := 777
    balanceWeiOf := fun _ => some (3 * 10 ^ 18)
    tokenDecimals := some 6
    tokenBalanceOf := fun _ => some 250000000
    receiptOf := fun _ => some ⟨1, 42⟩ }

/-- A node reachable for submission whose read RPCs all raise
(transport failure modelled by `none`). -/
def chainRpcFail : ChainState :=
  { gasPrice := 10
    pendingCount := 0
    submitAccepts := true
    estimateGasResult := 0
    balanceWeiOf := fun _ => none
    tokenDecimals := none
    tokenBalanceOf := fun _ => none
    receiptOf := fun _ => none }

/-- A node that accepts the submission (hash 0 = the next nonce) but
whose receipt for that transaction reports on-chain failure
(`status = 0`). -/
def chainFailedTx : ChainState :=
  { gasPrice := 10
    pendingCount := 0
    submitAccepts := true
    estimateGasResult := 0
    balanceWeiOf := fun _ => some 0
    tokenDecimals := some 6
    tokenBalanceOf := fun _ => some 0
    receiptOf := fun h => if h = 0 then some ⟨0, 7⟩ else none }

/-! Helper lemmas about the contract-call path. -/

/-- Success path of `call_contract_function`: connected wallet with an
account and an accepting node yield the submitted hash and the built
envelope, and the node's pending count grows by one. -/
theorem callContractFunction_ok (w : Wallet) (c : ChainState) (addr : ℤ)
    (fn : String) (args : List ℤ) (v : ℕ) (a : Account)
    (ha : w.account = some a) (hc : w.connected = true)
    (hs : c.submitAccepts = true) :
    callContractFunction w c addr fn args v =
      (some (c.pendingCount,
        { contractAddress := addr
          functionName := fn
          args := args
          valueWei := v
          gas := 300000
          gasPrice := bufferedGasPrice c.gasPrice
          nonce := c.pendingCount
          chainId := 11155111 }),
       { c with pendingCount := c.pendingCount + 1 }) := by
  simp [callContractFunction, ha, hc, hs]

/-- `int(p * 1.2)` is the integer part of 1.2 times the quoted price. -/
theorem bufferedGasPrice_eq_floor (p : ℕ) :
    bufferedGasPrice p = ⌊(1.2 : ℚ) * p⌋₊ := by
  have h : (1.2 : ℚ) * p = ((6 * p : ℕ) : ℚ) / ((5 : ℕ) : ℚ) := by
    push_cast; ring_nf
  rw [h, Nat.floor_div_nat, Nat.floor_natCast]
  rfl

/-- C1: for every sequence of state-changing contract calls issued
back-to-back by one connected account without waiting for confirmation
(and accepted by the node), the nonce of each transaction is the node's
pending transaction count at build time, so the submitted nonces are
`base, base+1, ..., base+N-1` with no repeats or gaps — in particular
two immediately successive calls get nonces differing by exactly 1. -/
theorem C1_nonce_monotonicity (w : Wallet)
    (calls : List (ℤ × String × List ℤ × ℕ)) (c : ChainState)
    (a : Account) (ha : w.account = some a) (hc : w.connected = true)
    (hs : c.submitAccepts = true) :
    callSeqNonces w calls c = List.range' c.pendingCount calls.length := by
  induction calls generalizing c with
  | nil => rfl
  | cons hd tl ih =>
    obtain ⟨addr, fn, args, v⟩ := hd
    rw [callSeqNonces,
      callContractFunction_ok w c addr fn args v a ha hc hs,
      List.length_cons, List.range'_succ]
    exact congrArg (c.pendingCount :: ·) (ih _ hs)

/-- C1 witness: three immediate calls from the connected fixture wallet
against a node with 5 pending transactions get nonces 5, 6, 7. -/
theorem C1_nonce_monotonicity_witness :
    wOk.account = some acctOne ∧ wOk.connected = true ∧
    chainOk.submitAccepts = true ∧
    callSeqNonces wOk
      [(7, "mint", [], 0), (7, "transfer", [], 0), (7, "approve", [], 0)]
      chainOk = List.range' chainOk.pendingCount 3 ∧
    List.range' chainOk.pendingCount 3 = [5, 6, 7] :=
  ⟨rfl, rfl, rfl,
    C1_nonce_monotonicity wOk _ chainOk acctOne rfl rfl rfl, by decide⟩

/-- C4: every transaction built by `call_contract_function` carries a
gas price equal to the integer part of 1.2 times the node's currently
quoted gas price, and the fixed gas limit 300000; no gas estimation is
consulted (the result is invariant under any change of the node's
estimate). -/
theorem C4_gas_price_buffer (w : Wallet) (c : ChainState) (addr : ℤ)
    (fn : String) (args : List ℤ) (v : ℕ) (a : Account)
    (ha : w.account = some a) (hc : w.connected = true)
    (hs : c.submitAccepts = true) :
    ∃ h tx, (callContractFunction w c addr fn args v).1 = some (h, tx) ∧
      tx.gasPrice = ⌊(1.2 : ℚ) * c.gasPrice⌋₊ ∧
      tx.gas = 300000 ∧
      ∀ e, (callContractFunction w { c with estimateGasResult := e }
          addr fn args v).1 =
        (callContractFunction w c addr fn args v).1 := by
  rw [callContractFunction_ok w c addr fn args v a ha hc hs]
  refine ⟨c.pendingCount, _, rfl, (bufferedGasPrice_eq_floor _), rfl, ?_⟩
  intro e
  rw [callContractFunction_ok w { c with estimateGasResult := e }
    addr fn args v a ha hc hs]

/-- C4 witness: with a quoted gas price of 10 wei the built transaction
carries gas price 12 = ⌊1.2 · 10⌋ and gas limit 300000. -/
theorem C4_gas_price_buffer_witness :
    wOk.account = some acctOne ∧
    (∃ h tx, (callContractFunction wOk chainOk 7 "mint" [] 0).1 =
        some (h, tx) ∧
      tx.gasPrice = ⌊(1.2 : ℚ) * chainOk.gasPrice⌋₊ ∧
      tx.gas = 300000 ∧
      ∀ e, (callContractFunction wOk { chainOk with estimateGasResult := e }
          7 "mint" [] 0).1 =
        (callContractFunction wOk chainOk 7 "mint" [] 0).1) ∧
    ⌊(1.2 : ℚ) * (chainOk.gasPrice : ℚ)⌋₊ = 12 :=
  ⟨rfl, C4_gas_price_buffer wOk chainOk 7 "mint" [] 0 acctOne rfl rfl rfl,
    by norm_num [chainOk]⟩

/-- C2: whenever both token reads succeed, `get_token_balance` returns
the human-scaled amount `raw / 10^decimals`. -/
theorem C2_token_balance_scaling (w : Wallet) (c : ChainState)
    (holder : Option ℤ) (a : Account) (ha : w.account = some a)
    (hc : w.connected = true) (d raw : ℕ)
    (hd : c.tokenDecimals = some d)
    (hr : c.tokenBalanceOf (holder.getD (a.address : ℤ)) = some raw) :
    getTokenBalance w c holder = (raw : ℚ) / 10 ^ d := by
  simp [getTokenBalance, ha, hc, hd, hr]

/-- C2 witness: `decimals()=6`, `balanceOf()=250000000` give a balance
of 250. -/
theorem C2_token_balance_scaling_witness :
    wOk.account = some acctOne ∧ wOk.connected = true ∧
    chainOk.tokenDecimals = some 6 ∧
    chainOk.tokenBalanceOf ((none : Option ℤ).getD (acctOne.address : ℤ))
      = some 250000000 ∧
    getTokenBalance wOk chainOk none = 250 := by
  refine ⟨rfl, rfl, rfl, rfl, ?_⟩
  rw [C2_token_balance_scaling wOk chainOk none acctOne rfl rfl 6
    250000000 rfl rfl]
  norm_num

/-- C5: `get_token_balance` returns 0 rather than propagating a
failure whenever the wallet is offline, has no account, or either
token read fails. -/
theorem C5_token_balance_failure_zero (w : Wallet) (c : ChainState)
    (holder : Option ℤ)
    (h : w.connected = false ∨ w.account = none ∨
      c.tokenDecimals = none ∨ ∀ x : ℤ, c.tokenBalanceOf x = none) :
    getTokenBalance w c holder = 0 := by
  rcases hacc : w.account with _ | a
  · simp [getTokenBalance, hacc]
  · rcases h with h | h | h | h
    · simp [getTokenBalance, hacc, h]
    · rw [hacc] at h; cases h
    · rcases hb : c.tokenBalanceOf (holder.getD (a.address : ℤ)) with _ | raw
        <;> simp [getTokenBalance, hacc, h, hb]
    · simp [getTokenBalance, hacc, h]

/-- C5 witness: the offline fixture wallet reports a zero token
balance without an error. -/
theorem C5_token_balance_failure_zero_witness :
    wOff.connected = false ∧ getTokenBalance wOff chainOk none = 0 :=
  ⟨rfl, C5_token_balance_failure_zero wOff chainOk none (Or.inl rfl)⟩

/-- C6 counterexample: the chain-query wrapper the connection layer
exposes for balances, `get_eth_balance`, silently returns zero on
transport failure instead of failing with an RpcError — the connected
fixture wallet against a node whose `eth_getBalance` raises yields 0.0,
indistinguishable from a genuine zero balance. -/
theorem C6_counterexample :
    wOk.connected = true ∧
    chainRpcFail.balanceWeiOf 7 = none ∧
    getEthBalance wOk chainRpcFail (some 7) = 0 :=
  ⟨rfl, rfl, rfl⟩

/-- C6 amended: `get_eth_balance` swallows transport failures and
returns 0.0 (likewise when the wallet is offline); only on a successful
read does it return `wei / 10^18`.  No RpcError reaches the caller, so
the fallback decision is not left to the caller. -/
theorem C6_amended_balance_swallows_errors (w : Wallet) (c : ChainState)
    (addr : ℤ) :
    (c.balanceWeiOf addr = none → getEthBalance w c (some addr) = 0) ∧
    (w.connected = false → getEthBalance w c (some addr) = 0) ∧
    (∀ b, c.balanceWeiOf addr = some b → w.connected = true →
      getEthBalance w c (some addr) = (b : ℚ) / 10 ^ 18) := by
  refine ⟨?_, ?_, ?_⟩
  · intro h
    by_cases hc : w.connected <;> simp [getEthBalance, hc, h, Option.orElse]
  · intro h
    simp [getEthBalance, h]
  · intro b hb hc
    simp [getEthBalance, hc, hb, Option.orElse]

/-- C6 amended witness: a failing balance read on the connected fixture
wallet yields 0. -/
theorem C6_amended_balance_swallows_errors_witness :
    chainRpcFail.balanceWeiOf 7 = none ∧
    getEthBalance wOk chainRpcFail (some 7) = 0 :=
  ⟨rfl, (C6_amended_balance_swallows_errors wOk chainRpcFail 7).1 rfl⟩

/-- C3 counterexample: the reward flow (`claim_meaningful_reward`)
reports success — it returns the transaction hash — even though the
receipt of the submitted transaction has status 0, because it never
waits for any receipt; so it is not true that every flow named by the
claim reports success iff the obtained receipt has status code 1. -/
theorem C3_counterexample :
    (claimMeaningfulReward wOk chainFailedTx 7 5 100).1 = some 0 ∧
    (chainFailedTx.receiptOf 0).map Receipt.status = some 0 :=
  ⟨rfl, rfl⟩

/-- C3 amended: the mint-then-confirm flow (`mint_test_usdc`) waits for
the receipt and reports success iff it exists with status code 1, but
the reward flow (`claim_meaningful_reward`) reports success exactly
when the submission returned a transaction hash, consulting no
receipt. -/
theorem C3_amended_receipt_authority (w : Wallet) (c : ChainState)
    (usdcAddr : ℤ) (a : ℚ) (u : ℤ) (s : ℚ) :
    ((mintTestUsdc w c usdcAddr a).1.isSome = true ↔
      (w.connected = true ∧ w.account.isSome = true ∧
        c.submitAccepts = true ∧
        ∃ r, c.receiptOf c.pendingCount = some r ∧ r.status = 1)) ∧
    ((claimMeaningfulReward w c usdcAddr u s).1.isSome = true ↔
      (w.connected = true ∧ w.account.isSome = true ∧
        c.submitAccepts = true)) := by
  rcases hacc : w.account with _ | acct
  · simp [mintTestUsdc, claimMeaningfulReward, callContractFunction, hacc]
  · by_cases hc : w.connected
    · by_cases hs : c.submitAccepts
      · rw [mintTestUsdc, claimMeaningfulReward] at *
        rcases hr : c.receiptOf c.pendingCount with _ | r
        · simp [hacc, hc, hs, callContractFunction_ok w c usdcAddr "mint"
            [(acct.address : ℤ), pyInt (a * 10 ^ 6)] 0 acct hacc hc hs,
            callContractFunction_ok w c usdcAddr "transfer"
            [u, pyInt ((10 + s / 10) * 10 ^ 6)] 0 acct hacc hc hs,
            waitForTransaction, hr]
        · by_cases hst : r.status = 1
            <;> simp [hacc, hc, hs, callContractFunction_ok w c usdcAddr
              "mint" [(acct.address : ℤ), pyInt (a * 10 ^ 6)] 0 acct hacc
              hc hs,
              callContractFunction_ok w c usdcAddr "transfer"
              [u, pyInt ((10 + s / 10) * 10 ^ 6)] 0 acct hacc hc hs,
              waitForTransaction, hr, hst]
      · simp [mintTestUsdc, claimMeaningfulReward, callContractFunction,
          hacc, hc, hs]
    · simp [mintTestUsdc, claimMeaningfulReward, callContractFunction,
        hacc, hc]

/-- C3 amended witness: against the healthy fixture node the mint flow
succeeds (receipt status 1), and against the failed-transaction node
the reward flow still reports success. -/
theorem C3_amended_receipt_authority_witness :
    (mintTestUsdc wOk chainOk 7 100).1.isSome = true ∧
    (claimMeaningfulReward wOk chainFailedTx 7 5 100).1.isSome = true :=
  ⟨(C3_amended_receipt_authority wOk chainOk 7 100 0 0).1.mpr
      ⟨rfl, rfl, rfl, ⟨1, 42⟩, rfl, rfl⟩,
    (C3_amended_receipt_authority wOk chainFailedTx 7 0 5 100).2.mpr
      ⟨rfl, rfl, rfl⟩⟩

/-- C7 counterexample: the 64-character string of repeated letter f
(value 2^256 - 1, at or above the secp256k1 group order) consists of
exactly 64 hex characters, yet the wallet's key-import rejects it: the
external key library raises on an out-of-range scalar and the wallet
reports failure, so the import path does not accept every
exactly-64-hex-character input. -/
theorem C7_counterexample :
    (List.replicate 64 'f').length = 64 ∧
    (parseHexList (List.replicate 64 'f')).isSome = true ∧
    importWallet (List.replicate 64 'f') = none := by
  refine ⟨by decide, by decide, ?_⟩
  decide

/-- C7 amended: `import_wallet` strips an optional `0x`, rejects any
remainder that is not exactly 64 characters, and accepts a 64-character
remainder precisely when it parses as hex to a valid secp256k1 scalar
`v` with `0 < v <` the group order (out-of-range or non-hex input makes
the external key derivation raise, which is caught and reported as
failure); on acceptance the derived address is stored. -/
theorem C7_amended_import_validation (l : List Char) :
    ((strip0x l).length ≠ 64 → importWallet l = none) ∧
    ((importWallet l).isSome = true ↔
      ((strip0x l).length = 64 ∧
        ∃ v, parseHexList (strip0x l) = some v ∧ 0 < v ∧ v < secpOrder)) ∧
    (∀ acct, importWallet l = some acct →
      acct.address = deriveAddress acct.key) := by
  refine ⟨?_, ?_, ?_⟩
  · intro h
    simp [importWallet, h]
  · by_cases h : (strip0x l).length = 64
    · rcases hp : parseHexList (strip0x l) with _ | v
      · simp [importWallet, h, hp]
      · by_cases hv : 0 < v ∧ v < secpOrder
          <;> simp [importWallet, h, hp, hv]
    · simp [importWallet, h]
  · intro acct hacct
    by_cases h : (strip0x l).length = 64
    · rcases hp : parseHexList (strip0x l) with _ | v
      · simp [importWallet, h, hp] at hacct
      · by_cases hv : 0 < v ∧ v < secpOrder
        · simp [importWallet, h, hp, hv] at hacct
          rw [← hacct]
        · simp [importWallet, h, hp, hv] at hacct
    · simp [importWallet, h] at hacct

/-- C7 amended witness: a 63-character remainder is rejected; the
64-character all-`7` string (an in-range scalar) is accepted. -/
theorem C7_amended_import_validation_witness :
    importWallet (List.replicate 63 'a') = none ∧
    (importWallet (List.replicate 64 '7')).isSome = true :=
  ⟨(C7_amended_import_validation (List.replicate 63 'a')).1 (by decide),
    (C7_amended_import_validation (List.replicate 64 '7')).2.1.mpr
      ⟨by decide,
        0x7777777777777777777777777777777777777777777777777777777777777777,
        by decide, by decide, by decide⟩⟩

/-! Helper lemmas for the hex round trip behind the encrypted
save/load flow. -/

theorem hexCharsLE_length (w v : ℕ) : (hexCharsLE w v).length = w := by
  induction w generalizing v with
  | zero => rfl
  | succ w ih => simp [hexCharsLE, ih]

theorem hexChars_length (w v : ℕ) : (hexChars w v).length = w := by
  simp [hexChars, hexCharsLE_length]

theorem mem_hexCharsLE {ch : Char} {w v : ℕ} (h : ch ∈ hexCharsLE w v) :
    ∃ d, d < 16 ∧ ch = hexDigitChar d := by
  induction w generalizing v with
  | zero => cases h
  | succ w ih =>
    rcases List.mem_cons.mp h with h | h
    · exact ⟨v % 16, Nat.mod_lt v (by norm_num), h⟩
    · exact ih h

theorem hexDigitChar_ne_x {d : ℕ} (h : d < 16) : hexDigitChar d ≠ 'x' := by
  interval_cases d <;> decide

theorem strip0x_hexChars (w v : ℕ) :
    strip0x (hexChars w v) = hexChars w v := by
  unfold strip0x
  by_cases h : (hexChars w v).take 2 = ['0', 'x']
  · exfalso
    have hx : 'x' ∈ hexChars w v := by
      refine List.take_subset 2 _ ?_
      rw [h]; simp
    rw [hexChars, List.mem_reverse] at hx
    obtain ⟨d, hd, hchar⟩ := mem_hexCharsLE hx
    exact hexDigitChar_ne_x hd hchar.symm
  · rw [if_neg h]

theorem hexDigitVal_hexDigitChar {d : ℕ} (h : d < 16) :
    hexDigitVal (hexDigitChar d) = some d := by
  interval_cases d <;> decide

theorem hexChars_succ (w v : ℕ) :
    hexChars (w + 1) v =
      hexChars w (v / 16) ++ [hexDigitChar (v % 16)] := by
  simp [hexChars, hexCharsLE]

theorem parseHex_fold (w : ℕ) : ∀ v a : ℕ,
    List.foldl hexStep (some a) (hexChars w v)
      = some (a * 16 ^ w + v % 16 ^ w) := by
  induction w with
  | zero => intro v a; simp [hexChars, hexCharsLE, Nat.mod_one]
  | succ w ih =>
    intro v a
    rw [hexChars_succ, List.foldl_append, ih (v / 16) a]
    have hstep : hexStep (some (a * 16 ^ w + v / 16 % 16 ^ w))
        (hexDigitChar (v % 16))
        = some (16 * (a * 16 ^ w + v / 16 % 16 ^ w) + v % 16) := by
      simp [hexStep, hexDigitVal_hexDigitChar (Nat.mod_lt v (by norm_num))]
    have hm : v % 16 ^ (w + 1) = v % 16 + 16 * (v / 16 % 16 ^ w) := by
      rw [pow_succ, mul_comm]
      exact Nat.mod_mul
    simp only [List.foldl_cons, List.foldl_nil, hstep]
    rw [hm, pow_succ]
    congr 1
    ring

theorem parseHexList_hexChars (w v : ℕ) :
    parseHexList (hexChars w v) = some (v % 16 ^ w) := by
  have h := parseHex_fold w v 0
  simpa [parseHexList] using h

theorem secpOrder_lt_pow : secpOrder < 16 ^ 64 := by decide

theorem importWallet_hexChars (v : ℕ) (h0 : 0 < v)
    (hv : v < secpOrder) :
    importWallet (hexChars 64 v) = some ⟨v, deriveAddress v⟩ := by
  have hlt : v < 16 ^ 64 := lt_trans hv secpOrder_lt_pow
  unfold importWallet
  rw [strip0x_hexChars, if_pos (hexChars_length 64 v),
    parseHexList_hexChars, Nat.mod_eq_of_lt hlt]
  simp [h0, hv]

/-- C8: for every successfully generated key and every passphrase,
saving the wallet encrypted and loading it back with the same
passphrase restores an account with the original account's address. -/
theorem C8_encrypted_roundtrip (randKey : ℕ) (pw : String)
    (acct : Account) (hgen : createNewWallet randKey = some acct) :
    ∃ ks, saveWalletToFile (some acct) pw = some ks ∧
      Option.map Account.address (loadWalletFromFile ks pw)
        = some acct.address := by
  unfold createNewWallet at hgen
  by_cases h : 0 < randKey ∧ randKey < secpOrder
  · rw [if_pos h, Option.some_inj] at hgen
    refine ⟨encryptKeystore acct.key pw, rfl, ?_⟩
    rw [← hgen]
    simp [loadWalletFromFile, decryptKeystore, encryptKeystore,
      importWallet_hexChars randKey h.1 h.2]
  · rw [if_neg h] at hgen; cases hgen

/-- C8 witness: key 3 with passphrase "p@ss" round-trips to the same
address. -/
theorem C8_encrypted_roundtrip_witness :
    createNewWallet 3 = some ⟨3, deriveAddress 3⟩ ∧
    ∃ ks, saveWalletToFile (some ⟨3, deriveAddress 3⟩) "p@ss"
        = some ks ∧
      Option.map Account.address (loadWalletFromFile ks "p@ss")
        = some (Account.mk 3 (deriveAddress 3)).address :=
  ⟨by decide,
    C8_encrypted_roundtrip 3 "p@ss" ⟨3, deriveAddress 3⟩ (by decide)⟩

/-- Event trace of the browser deposit flow: the approve submission
always happens; the 3-second timer and the deposit submission happen
exactly when the approve submission returned a hash; nothing else. -/
theorem depositRealUsdc_events (w : Wallet) (c : ChainState)
    (usdcAddr vaultAddr : ℤ) (a : ℚ) :
    (depositRealUsdc w c usdcAddr vaultAddr a).1 =
      if (callContractFunction w c usdcAddr "approve"
          [vaultAddr, pyInt (a * 10 ^ 6)] 0).1.isSome then
        [FlowEvent.callAttempt "approve" (pyInt (a * 10 ^ 6)),
         FlowEvent.delayMs 3000,
         FlowEvent.callAttempt "deposit" (pyInt a)]
      else
        [FlowEvent.callAttempt "approve" (pyInt (a * 10 ^ 6))] := by
  rcases h : callContractFunction w c usdcAddr "approve"
      [vaultAddr, pyInt (a * 10 ^ 6)] 0 with ⟨res, c₁⟩
  cases res <;> simp [depositRealUsdc, h]

/-- C9: in the approve-then-deposit flow the dependent deposit call is
issued only after the approve submission returned a transaction hash,
and then after a fixed 3000 ms delay rather than any receipt wait; if
the approve submission returned no hash, the deposit step is never
issued, and no step of the flow waits on a receipt. -/
theorem C9_approve_then_timed_deposit (w : Wallet) (c : ChainState)
    (usdcAddr vaultAddr : ℤ) (a : ℚ) :
    ((callContractFunction w c usdcAddr "approve"
        [vaultAddr, pyInt (a * 10 ^ 6)] 0).1.isSome = true →
      (depositRealUsdc w c usdcAddr vaultAddr a).1 =
        [FlowEvent.callAttempt "approve" (pyInt (a * 10 ^ 6)),
         FlowEvent.delayMs 3000,
         FlowEvent.callAttempt "deposit" (pyInt a)]) ∧
    ((callContractFunction w c usdcAddr "approve"
        [vaultAddr, pyInt (a * 10 ^ 6)] 0).1 = none →
      (depositRealUsdc w c usdcAddr vaultAddr a).1 =
        [FlowEvent.callAttempt "approve" (pyInt (a * 10 ^ 6))]) ∧
    (∀ h, FlowEvent.receiptWait h ∉
      (depositRealUsdc w c usdcAddr vaultAddr a).1) := by
  refine ⟨?_, ?_, ?_⟩
  · intro h
    rw [depositRealUsdc_events, if_pos h]
  · intro h
    rw [depositRealUsdc_events, if_neg (by simp [h])]
  · intro h
    rw [depositRealUsdc_events]
    by_cases hc : (callContractFunction w c usdcAddr "approve"
        [vaultAddr, pyInt (a * 10 ^ 6)] 0).1.isSome = true
      <;> simp [hc]

/-- C9 witness: with the connected fixture the trace is approve, 3000
ms delay, deposit; with the offline fixture only the failed approve
attempt appears. -/
theorem C9_approve_then_timed_deposit_witness :
    (depositRealUsdc wOk chainOk 7 9 100).1 =
      [FlowEvent.callAttempt "approve" (pyInt ((100 : ℚ) * 10 ^ 6)),
       FlowEvent.delayMs 3000,
       FlowEvent.callAttempt "deposit" (pyInt (100 : ℚ))] ∧
    (depositRealUsdc wOff chainOk 7 9 100).1 =
      [FlowEvent.callAttempt "approve" (pyInt ((100 : ℚ) * 10 ^ 6))] :=
  ⟨(C9_approve_then_timed_deposit wOk chainOk 7 9 100).1 rfl,
    (C9_approve_then_timed_deposit wOff chainOk 7 9 100).2.1 rfl⟩

/-- C10: the approve call authorizes `int(a * 10^6)` raw token units
while the dependent deposit call passes the unscaled `int(a)`, so for
every amount `a ≥ 1` the raw amount deposited is (at least) a factor of
10^6 smaller than the raw amount approved, with exact factor 10^6 at
whole-number amounts. -/
theorem C10_approve_deposit_unit_mismatch (w : Wallet) (c : ChainState)
    (usdcAddr vaultAddr : ℤ) (a : ℚ) (h1 : 1 ≤ a)
    (hok : (callContractFunction w c usdcAddr "approve"
        [vaultAddr, pyInt (a * 10 ^ 6)] 0).1.isSome = true) :
    (depositRealUsdc w c usdcAddr vaultAddr a).1 =
      [FlowEvent.callAttempt "approve" (pyInt (a * 10 ^ 6)),
       FlowEvent.delayMs 3000,
       FlowEvent.callAttempt "deposit" (pyInt a)] ∧
    1 ≤ pyInt a ∧
    10 ^ 6 * pyInt a ≤ pyInt (a * 10 ^ 6) ∧
    ∀ n : ℕ, a = (n : ℚ) →
      pyInt (a * 10 ^ 6) = 10 ^ 6 * pyInt a := by
  have h0 : (0 : ℚ) ≤ a := le_trans zero_le_one h1
  have h0' : (0 : ℚ) ≤ a * 10 ^ 6 := by positivity
  refine ⟨by rw [depositRealUsdc_events, if_pos hok], ?_, ?_, ?_⟩
  · rw [pyInt, if_pos h0]
    exact Int.le_floor.mpr (by exact_mod_cast h1)
  · rw [pyInt, if_pos h0, pyInt, if_pos h0']
    refine Int.le_floor.mpr ?_
    push_cast
    have hfl : (⌊a⌋ : ℚ) ≤ a := Int.floor_le a
    nlinarith
  · intro n hn
    subst hn
    rw [pyInt, if_pos h0', pyInt, if_pos h0]
    have hcast : ((n : ℚ) * 10 ^ 6) = ((n * 10 ^ 6 : ℕ) : ℚ) := by
      push_cast; ring
    rw [hcast, Int.floor_natCast, Int.floor_natCast]
    push_cast; ring

/-- C10 witness: at the default amount 100 the approve call authorizes
100000000 raw units while the deposit call passes 100. -/
theorem C10_approve_deposit_unit_mismatch_witness :
    (1 : ℚ) ≤ 100 ∧
    pyInt ((100 : ℚ) * 10 ^ 6) = 100000000 ∧
    pyInt (100 : ℚ) = 100 ∧
    ((depositRealUsdc wOk chainOk 7 9 100).1 =
      [FlowEvent.callAttempt "approve" (pyInt ((100 : ℚ) * 10 ^ 6)),
       FlowEvent.delayMs 3000,
       FlowEvent.callAttempt "deposit" (pyInt (100 : ℚ))] ∧
     1 ≤ pyInt (100 : ℚ) ∧
     10 ^ 6 * pyInt (100 : ℚ) ≤ pyInt ((100 : ℚ) * 10 ^ 6) ∧
     ∀ n : ℕ, (100 : ℚ) = (n : ℚ) →
       pyInt ((100 : ℚ) * 10 ^ 6) = 10 ^ 6 * pyInt (100 : ℚ)) :=
  ⟨by norm_num, by norm_num [pyInt], by norm_num [pyInt],
    C10_approve_deposit_unit_mismatch wOk chainOk 7 9 100 (by norm_num)
      rfl⟩

end BurgerBrows
